import Mathlib

/-!
# Verification of the wayland-rs client connection and dispatch layer

Shallow embedding of `src/wayland-client/src/display.rs` and
`src/src/interfaces/buffer.rs`, together with spec-modelled components
(wire codec, connection flush, fatal-error latch) whose implementations
live outside the provided sources.
-/

set_option maxHeartbeats 1000000

namespace Wayland

/-- The `ConnectError` enum of `display.rs`: reasons why connecting to the
wayland server failed. -/
inductive ConnectError where
  | NoWaylandLib
  | XdgRuntimeDirNotSet
  | NoCompositorListening
  | InvalidName
  | InvalidFd
deriving DecidableEq, Repr

/-- The `ProtocolError` struct of `display.rs`: a protocol error generated by
the server, with code, offending object id, offending interface, message. -/
structure ProtocolError where
  code : Nat
  object_id : Nat
  object_interface : String
  message : String
deriving DecidableEq, Repr

/-- Model of Rust's `str::parse::<i32>`: an optional sign followed by at
least one ASCII digit, rejecting values outside the `i32` range. -/
def parseI32core (l : List Char) (neg : Bool) : Option Int :=
  if l = [] then none
  else if l.all Char.isDigit then
    let n : Nat := l.foldl (fun a c => a * 10 + (c.toNat - 48)) 0
    if neg then
      if n ≤ 2 ^ 31 then some (-(n : Int)) else none
    else
      if n < 2 ^ 31 then some (n : Int) else none
  else none

/-- Model of `txt.parse::<i32>()` used by `Display::connect_to_env`. -/
def parseI32 (s : String) : Option Int :=
  match s.data with
  | '+' :: rest => parseI32core rest false
  | '-' :: rest => parseI32core rest true
  | cs => parseI32core cs false

/-- The `Display` value on the success path; it records the file descriptor
the connection was constructed around. -/
structure DisplayM where
  fd : Int
deriving DecidableEq, Repr

/-- The process environment as read by `connect_to_env` / `connect_to_name`:
the three environment variables consulted by `display.rs`. -/
structure Env where
  waylandSocket : Option String
  xdgRuntimeDir : Option String
  waylandDisplay : Option String

/-- The operating-system effects `display.rs` depends on, as oracles:
whether setting `FD_CLOEXEC` succeeds on a given fd (`F_GETFD`/`F_SETFD`),
the outcome of `UnixStream::connect` on a socket path (the runtime
directory joined with the display name), and the outcome of
`DisplayInner::from_fd` on an owned fd. -/
structure SysWorld where
  cloexecOk : Int → Bool
  connectPath : String → String → Option Int
  fdInit : Int → Option ConnectError

/-- `Display::from_fd`: builds the `Display` around the fd, or propagates
the `DisplayInner::from_fd` failure. -/
def from_fd (w : SysWorld) (fd : Int) : Except ConnectError DisplayM :=
  match w.fdInit fd with
  | some e => .error e
  | none => .ok ⟨fd⟩

/-- The `WAYLAND_SOCKET` branch of `Display::connect_to_env` (display.rs
lines 111-129): parse the variable as an i32 fd, set `FD_CLOEXEC` on it,
and on fcntl failure close the fd and fail with `InvalidFd`. The second
component records the fds explicitly closed before returning. -/
def wayland_socket_branch (w : SysWorld) (txt : String) :
    Except ConnectError DisplayM × List Int :=
  match parseI32 txt with
  | none => (.error .InvalidFd, [])
  | some fd =>
    if w.cloexecOk fd then
      (from_fd w fd, [])
    else
      (.error .InvalidFd, [fd])

/-- The fallback branch of `Display::connect_to_env` (display.rs lines
130-138): require `XDG_RUNTIME_DIR`, push `WAYLAND_DISPLAY` onto it, and
connect to the resulting path. -/
def socket_path_branch (w : SysWorld) (env : Env) :
    Except ConnectError DisplayM × List Int :=
  match env.xdgRuntimeDir with
  | none => (.error .XdgRuntimeDirNotSet, [])
  | some dir =>
    match env.waylandDisplay with
    | none => (.error .NoCompositorListening, [])
    | some disp =>
      match w.connectPath dir disp with
      | none => (.error .NoCompositorListening, [])
      | some fd => (from_fd w fd, [])

/-- `Display::connect_to_env` (display.rs lines 110-139). -/
def connect_to_env (env : Env) (w : SysWorld) :
    Except ConnectError DisplayM × List Int :=
  match env.waylandSocket with
  | some txt => wayland_socket_branch w txt
  | none => socket_path_branch w env

/-- `Display::connect_to_name` (display.rs lines 147-155). -/
def connect_to_name (name : String) (env : Env) (w : SysWorld) :
    Except ConnectError DisplayM :=
  match env.xdgRuntimeDir with
  | none => .error .XdgRuntimeDirNotSet
  | some dir =>
    match w.connectPath dir name with
    | none => .error .NoCompositorListening
    | some fd => from_fd w fd

/-- A fixed environment used by the witness theorems: `WAYLAND_SOCKET=3`. -/
def envFd3 : Env := ⟨some "3", some "/run/user/1000", some "wayland-0"⟩

/-- A fixed environment used by the witness theorems: `WAYLAND_SOCKET=abc`. -/
def envBadFd : Env := ⟨some "abc", some "/run/user/1000", some "wayland-0"⟩

/-- A fixed environment with no variables set, for the witness theorems. -/
def envEmpty : Env := ⟨none, none, none⟩

/-- A fixed environment with only `XDG_RUNTIME_DIR` set. -/
def envXdgOnly : Env := ⟨none, some "/run/user/1000", none⟩

/-- A system-oracle assignment where fcntl succeeds and every connection
attempt fails, for the witness theorems. -/
def worldOk : SysWorld := ⟨fun _ => true, fun _ _ => none, fun _ => none⟩

/-- A system-oracle assignment where fcntl fails on every fd. -/
def worldNoCloexec : SysWorld := ⟨fun _ => false, fun _ _ => none, fun _ => none⟩

/-! ## Wire codec

Modelled from the spec: the WireCodec component (`encode_message` /
`decode_message`, spec sections 4.1 and 6) is not part of the provided
sources (it lives in the `imp` backend); the definitions below follow the
spec's wire-format description word for word. Bytes are `Nat` values below
256; file descriptors travel in a side list, never in the byte stream. -/

/-- Modelled from the spec: the argument-type slots of an interface
signature (spec section 3, "Interface descriptor"). -/
inductive ArgType where
  | int
  | uint
  | fixed
  | str
  | object
  | newId
  | array
  | fd
deriving DecidableEq, Repr

/-- Modelled from the spec: a decoded argument value for each slot type.
Strings carry their byte content without the terminating nul; arrays carry
their raw bytes; fds are plain integers carried out-of-band. -/
inductive ArgVal where
  | int (v : Int)
  | uint (v : Nat)
  | fixed (v : Int)
  | str (s : List Nat)
  | object (id : Nat)
  | newId (id : Nat)
  | array (a : List Nat)
  | fd (f : Int)
deriving DecidableEq, Repr

/-- Little-endian serialization of a u32 as four bytes. -/
def u32Bytes (n : Nat) : List Nat :=
  [n % 256, n / 256 % 256, n / 65536 % 256, n / 16777216 % 256]

/-- Read one u32 word (four bytes, little-endian) off the byte stream. -/
def readU32 : List Nat → Option (Nat × List Nat)
  | b0 :: b1 :: b2 :: b3 :: rest =>
    some (b0 + 256 * b1 + 65536 * b2 + 16777216 * b3, rest)
  | _ => none

/-- Two's-complement u32 representation of an i32 value. -/
def u32ofInt (v : Int) : Nat := (v % 4294967296).toNat

/-- Reinterpret a u32 payload as a signed i32. -/
def i32ofU32 (n : Nat) : Int :=
  if n < 2147483648 then (n : Int) else (n : Int) - 4294967296

/-- Number of nul bytes padding a field of `k` bytes to 4-byte alignment. -/
def pad4 (k : Nat) : Nat := (4 - k % 4) % 4

/-- Modelled from the spec: serialize one argument per its declared type
slot (spec 4.1): numeric slots are one u32 word; strings are a u32 length
prefix counting the bytes plus the terminating nul, the bytes, the nul, and
nul padding to 4-byte alignment; arrays are a u32 unpadded length prefix,
the bytes, and padding; fd slots write nothing to the byte stream and
append the fd to the side list. `none` on a type mismatch. -/
def encodeTyped : ArgType → ArgVal → Option (List Nat × List Int)
  | .int, .int v => some (u32Bytes (u32ofInt v), [])
  | .uint, .uint v => some (u32Bytes v, [])
  | .fixed, .fixed v => some (u32Bytes (u32ofInt v), [])
  | .str, .str s =>
    some (u32Bytes (s.length + 1) ++ s ++ [0] ++
      List.replicate (pad4 (s.length + 1)) 0, [])
  | .object, .object i => some (u32Bytes i, [])
  | .newId, .newId i => some (u32Bytes i, [])
  | .array, .array a =>
    some (u32Bytes a.length ++ a ++ List.replicate (pad4 a.length) 0, [])
  | .fd, .fd f => some ([], [f])
  | _, _ => none

/-- Serialize an argument list against a signature, concatenating byte
fields and side-list fds in argument order; `none` on arity mismatch. -/
def encodeArgList : List ArgType → List ArgVal → Option (List Nat × List Int)
  | [], [] => some ([], [])
  | t :: ts, v :: vs =>
    match encodeTyped t v, encodeArgList ts vs with
    | some (b, f), some (bs, fs) => some (b ++ bs, f ++ fs)
    | _, _ => none
  | _, _ => none

/-- Modelled from the spec: `encode_message(object_id, opcode, signature,
args)` writes an 8-byte header — the object id as a u32, then a u32 packing
the opcode in the low 16 bits and the total message length in bytes in the
high 16 bits — followed by the serialized arguments. The fd side list is
returned alongside the bytes. -/
def encode_message (oid op : Nat) (sig : List ArgType) (args : List ArgVal) :
    Option (List Nat × List Int) :=
  match encodeArgList sig args with
  | none => none
  | some (body, fds) =>
    some (u32Bytes oid ++ u32Bytes (op + 65536 * (8 + body.length)) ++ body, fds)

/-- Modelled from the spec: deserialize one argument per its type slot off
the (message-bounded) byte stream and fd queue; string and array reads that
would overrun the message bound fail, and an fd slot with an empty fd queue
fails (fd-queue underrun). -/
def decodeTyped : ArgType → List Nat → List Int →
    Option (ArgVal × List Nat × List Int)
  | .int, bs, fds =>
    match readU32 bs with
    | none => none
    | some (n, rest) => some (.int (i32ofU32 n), rest, fds)
  | .uint, bs, fds =>
    match readU32 bs with
    | none => none
    | some (n, rest) => some (.uint n, rest, fds)
  | .fixed, bs, fds =>
    match readU32 bs with
    | none => none
    | some (n, rest) => some (.fixed (i32ofU32 n), rest, fds)
  | .str, bs, fds =>
    match readU32 bs with
    | none => none
    | some (len, rest) =>
      if len = 0 then none
      else if rest.length < len + pad4 len then none
      else some (.str (rest.take (len - 1)), rest.drop (len + pad4 len), fds)
  | .object, bs, fds =>
    match readU32 bs with
    | none => none
    | some (n, rest) => some (.object n, rest, fds)
  | .newId, bs, fds =>
    match readU32 bs with
    | none => none
    | some (n, rest) => some (.newId n, rest, fds)
  | .array, bs, fds =>
    match readU32 bs with
    | none => none
    | some (len, rest) =>
      if rest.length < len + pad4 len then none
      else some (.array (rest.take len), rest.drop (len + pad4 len), fds)
  | .fd, bs, fds =>
    match fds with
    | [] => none
    | f :: fs => some (.fd f, bs, fs)

/-- Deserialize an argument list against a signature, threading the
remaining bytes and fd queue. -/
def decodeArgList : List ArgType → List Nat → List Int →
    Option (List ArgVal × List Nat × List Int)
  | [], bs, fds => some ([], bs, fds)
  | t :: ts, bs, fds =>
    match decodeTyped t bs fds with
    | none => none
    | some (v, bs2, fds2) =>
      match decodeArgList ts bs2 fds2 with
      | none => none
      | some (vs, bs3, fds3) => some (v :: vs, bs3, fds3)

/-- Modelled from the spec: the outcome of `decode_message` — `incomplete`
when fewer bytes are buffered than the declared message length
(backpressure, not an error), `violation` for malformed framing, overrun,
arity mismatch or fd-queue underrun, or the decoded message. -/
inductive DecodeResult where
  | incomplete
  | violation
  | ok (oid op : Nat) (args : List ArgVal) (consumed : Nat) (restFds : List Int)
deriving DecidableEq, Repr

/-- Modelled from the spec: `decode_message(bytes, fd_queue, signature)`
reads the 8-byte header, validates declared length against available bytes
(insufficient bytes is `incomplete`), then decodes each field per the
signature within the message bound, popping fds off the queue for fd
slots. -/
def decode_message (sig : List ArgType) (bytes : List Nat) (fds : List Int) :
    DecodeResult :=
  match readU32 bytes with
  | none => .incomplete
  | some (oid, rest1) =>
    match readU32 rest1 with
    | none => .incomplete
    | some (w2, rest2) =>
      let op := w2 % 65536
      let len := w2 / 65536
      if len < 8 then .violation
      else if bytes.length < len then .incomplete
      else
        match decodeArgList sig (rest2.take (len - 8)) fds with
        | none => .violation
        | some (vs, restB, restFds) =>
          if restB = [] then .ok oid op vs len restFds else .violation

/-- Value bounds for one argument against its type slot: i32 range for
signed slots, u32 range for unsigned slots, byte-valued content without
interior nuls for strings, byte-valued content for arrays. -/
def argOk : ArgType → ArgVal → Bool
  | .int, .int v => decide (-2147483648 ≤ v) && decide (v < 2147483648)
  | .uint, .uint v => decide (v < 4294967296)
  | .fixed, .fixed v => decide (-2147483648 ≤ v) && decide (v < 2147483648)
  | .str, .str s =>
    s.all (fun b => decide (0 < b) && decide (b < 256)) &&
      decide (s.length + 1 < 4294967296)
  | .object, .object i => decide (i < 4294967296)
  | .newId, .newId i => decide (i < 4294967296)
  | .array, .array a =>
    a.all (fun b => decide (b < 256)) && decide (a.length < 4294967296)
  | .fd, .fd _ => true
  | _, _ => false

/-- Value bounds for an argument list against a signature. -/
def argListOk : List ArgType → List ArgVal → Bool
  | [], [] => true
  | t :: ts, v :: vs => argOk t v && argListOk ts vs
  | _, _ => false

/-- A signature exercising every argument-type slot, for the witness. -/
def sigW : List ArgType :=
  [.int, .uint, .fixed, .str, .object, .newId, .array, .fd]

/-- A concrete argument list matching `sigW`, for the witness. -/
def argsW : List ArgVal :=
  [.int (-7), .uint 42, .fixed 3, .str [104, 105], .object 1, .newId 2,
    .array [1, 2, 3], .fd 5]

/-- The encoding of `argsW` at object id 1, opcode 0, for the witness. -/
def encW : List Nat × List Int := (encode_message 1 0 sigW argsW).getD ([], [])

/-! ## Dispatch and the fatal-error latch

Modelled from the spec: the dispatch engine (`EventQueue` dispatch and the
`DisplayInner` protocol-error slot, spec sections 4.5, 4.6 and 7) is not
part of the provided sources; `Display::protocol_error` (display.rs lines
201-203) merely forwards to it. The protocol-error slot is Display-wide,
set at most once, and shared by every event queue. -/

/-- Modelled from the spec: what one dispatch attempt on a queue observes
from the connection — either some number of decoded messages delivered, or
a protocol violation detected during decode. -/
inductive DecodeOutcome where
  | messages (n : Nat)
  | violation (e : ProtocolError)
deriving DecidableEq, Repr

/-- Modelled from the spec: the Display-wide dispatch state — the
protocol-error slot, set at most once, permanent. -/
structure DispState where
  fatal : Option ProtocolError
deriving DecidableEq, Repr

/-- Modelled from the spec: the result of one dispatch call — the count of
events dispatched, or the fatal latched condition. -/
inductive DispatchResult where
  | ok (n : Nat)
  | fatal (e : ProtocolError)
deriving DecidableEq, Repr

/-- Modelled from the spec: one dispatch call on queue `q` of a Display.
If an error is already latched, the call fails with that same condition and
changes nothing, whichever queue it is made on; otherwise a protocol
violation detected now latches the error permanently; otherwise the queued
messages are delivered. -/
def dispatch (s : DispState) (_q : Nat) (inp : DecodeOutcome) :
    DispatchResult × DispState :=
  match s.fatal with
  | some e => (.fatal e, s)
  | none =>
    match inp with
    | .violation e => (.fatal e, ⟨some e⟩)
    | .messages n => (.ok n, s)

/-- `Display::protocol_error` (display.rs lines 201-203): the latched
protocol error, if any. -/
def protocol_error (s : DispState) : Option ProtocolError := s.fatal

/-- Run a sequence of dispatch calls, each naming a queue and the decode
outcome that call would observe. -/
def dispatchRun (s : DispState) : List (Nat × DecodeOutcome) → DispState
  | [] => s
  | (q, i) :: rest => dispatchRun (dispatch s q i).2 rest

/-- A concrete protocol error for the witness theorems. -/
def errW : ProtocolError := ⟨2, 7, "wl_display", "invalid method"⟩

/-! ## Connection flush

Modelled from the spec: the Connection's `flush` (spec section 4.2) is not
part of the provided sources; `Display::flush` (display.rs lines 181-183)
merely forwards to it. -/

/-- Modelled from the spec: the outcome of one non-blocking socket write —
the byte count the socket accepted, or a hard I/O failure. -/
inductive WriteOutcome where
  | accepted (n : Nat)
  | ioFail
deriving DecidableEq, Repr

/-- Modelled from the spec: the Connection state `flush` acts on — the
outgoing byte buffer of pending requests. -/
structure Conn where
  outgoing : List Nat
deriving DecidableEq, Repr

/-- Modelled from the spec: the result of `flush` — success, backpressure
(`WouldBlock`), or a hard I/O failure, the latter two distinct. -/
inductive FlushResult where
  | ok
  | wouldBlock
  | ioError
deriving DecidableEq, Repr

/-- Modelled from the spec: `flush` performs at most one non-blocking
write, sending as much of the outgoing buffer as the socket accepts; it
retains any unwritten remainder for the next call, returns `wouldBlock`
when bytes remain (distinct from `ioError`), and is a successful no-op on
an empty buffer. -/
def flush (c : Conn) (sock : WriteOutcome) : FlushResult × Conn :=
  if c.outgoing.isEmpty then (.ok, c)
  else
    match sock with
    | .ioFail => (.ioError, c)
    | .accepted n =>
      let rest := c.outgoing.drop n
      if rest.isEmpty then (.ok, ⟨rest⟩) else (.wouldBlock, ⟨rest⟩)

/-! ## Buffer ownership (buffer.rs) -/

/-- `Buffer` (buffer.rs lines 7-10): a handle holding one raw `wl_buffer`
pointer. Pointers are modelled as `Nat`, with 0 the null pointer. -/
structure Buffer where
  ptr : Nat
deriving DecidableEq, Repr

/-- `FromOpt::from` for `Buffer` (buffer.rs lines 12-26): wraps the pointer
returned by `wl_shm_pool_create_buffer`, or `None` when it is null. -/
def Buffer.fromCreate (raw : Nat) : Option Buffer :=
  if raw = 0 then none else some ⟨raw⟩

/-- `Drop::drop` for `Buffer` (buffer.rs lines 28-32): the
`wl_buffer_destroy` calls emitted when a `Buffer` is dropped — exactly one,
on the stored pointer. -/
def Buffer.dropCalls (b : Buffer) : List Nat := [b.ptr]

/-- `FFI::ptr` / `FFI::ptr_mut` (buffer.rs lines 35-43): reading the raw
pointer emits no `wl_buffer_destroy` call. -/
def Buffer.ptrCalls (_ : Buffer) : List Nat := []

/-- One step of the `Buffer` API, the only operations buffer.rs defines:
creating a buffer (with the raw pointer the ffi call returned), reading a
live handle's pointer, or dropping a live handle. Handles are referred to
by the numeric identity the world assigned at creation. -/
inductive BufStep where
  | create (raw : Nat)
  | access (h : Nat)
  | dropH (h : Nat)
deriving DecidableEq, Repr

/-- The state of the `Buffer` ownership semantics: the next fresh handle
identity, the live handles with their stored pointers, and the log of
`wl_buffer_destroy` calls in order. -/
structure BufWorld where
  nextId : Nat
  live : List (Nat × Nat)
  destroyed : List Nat
deriving DecidableEq, Repr

/-- The `Buffer` API semantics: `create` wraps a non-null pointer into a
fresh live handle (per `Buffer.fromCreate`); `access` emits
`Buffer.ptrCalls` (nothing); `dropH` removes the handle and emits
`Buffer.dropCalls` (one destroy of the stored pointer). No operation
duplicates a handle. -/
def bufStep (w : BufWorld) : BufStep → BufWorld
  | .create raw =>
    match Buffer.fromCreate raw with
    | none => w
    | some b => { w with nextId := w.nextId + 1, live := (w.nextId, b.ptr) :: w.live }
  | .access h =>
    match w.live.lookup h with
    | none => w
    | some p => { w with destroyed := w.destroyed ++ Buffer.ptrCalls ⟨p⟩ }
  | .dropH h =>
    match w.live.lookup h with
    | none => w
    | some p =>
      ⟨w.nextId, w.live.eraseP (fun x => x.1 == h),
        w.destroyed ++ Buffer.dropCalls ⟨p⟩⟩

/-- Run the `Buffer` semantics over a list of steps. -/
def bufRunFrom (w : BufWorld) : List BufStep → BufWorld
  | [] => w
  | s :: rest => bufRunFrom (bufStep w s) rest

/-- Run the `Buffer` semantics from the empty world. -/
def bufRun (t : List BufStep) : BufWorld := bufRunFrom ⟨0, [], []⟩ t

/-- The raw pointers of the successful buffer creations in a trace. -/
def createdRaws : List BufStep → List Nat
  | [] => []
  | .create raw :: rest =>
    if raw = 0 then createdRaws rest else raw :: createdRaws rest
  | _ :: rest => createdRaws rest

end Wayland

namespace Wayland

example : parseI32 "17" = some 17 := by decide
example : parseI32 "-3" = some (-3) := by decide
example : parseI32 "+0" = some 0 := by decide
example : parseI32 "abc" = none := by decide
example : parseI32 "" = none := by decide
example : parseI32 "12x" = none := by decide
example : parseI32 "2147483647" = some 2147483647 := by decide
example : parseI32 "2147483648" = none := by decide
example : parseI32 "-2147483648" = some (-2147483648) := by decide

/-- C3: `Display::connect_to_env` gives the fd-from-environment source
priority: whenever `WAYLAND_SOCKET` is set, the connection is resolved
entirely by the fd branch — the result is unchanged under any values of
`XDG_RUNTIME_DIR`, `WAYLAND_DISPLAY` and any socket-connection oracle — and
only when `WAYLAND_SOCKET` is unset is the socket-path fallback used. -/
theorem connect_to_env_fd_priority (env : Env) (w : SysWorld) (txt : String)
    (h : env.waylandSocket = some txt) :
    connect_to_env env w = wayland_socket_branch w txt ∧
    (∀ (d n : Option String) (cp : String → String → Option Int),
      connect_to_env { env with xdgRuntimeDir := d, waylandDisplay := n }
        { w with connectPath := cp } = wayland_socket_branch w txt) ∧
    (∀ env2 : Env, env2.waylandSocket = none →
      connect_to_env env2 w = socket_path_branch w env2) := by
  refine ⟨by simp [connect_to_env, h], ?_, ?_⟩
  · intro d n cp
    simp only [connect_to_env, h]
    cases hp : parseI32 txt with
    | none => simp [wayland_socket_branch, hp]
    | some fd => simp [wayland_socket_branch, hp, from_fd]
  · intro env2 h2
    simp [connect_to_env, h2]

/-- Witness for C3 at the concrete environment `WAYLAND_SOCKET=3`. -/
theorem connect_to_env_fd_priority_witness :
    envFd3.waylandSocket = some "3" ∧
    (connect_to_env envFd3 worldOk = wayland_socket_branch worldOk "3" ∧
      (∀ (d n : Option String) (cp : String → String → Option Int),
        connect_to_env { envFd3 with xdgRuntimeDir := d, waylandDisplay := n }
          { worldOk with connectPath := cp } = wayland_socket_branch worldOk "3") ∧
      (∀ env2 : Env, env2.waylandSocket = none →
        connect_to_env env2 worldOk = socket_path_branch worldOk env2)) :=
  ⟨rfl, connect_to_env_fd_priority envFd3 worldOk "3" rfl⟩

/-- C4: whenever `WAYLAND_SOCKET` is set to a value that does not parse as a
decimal i32, `connect_to_env` fails synchronously with
`ConnectError::InvalidFd` (and closes no fd). -/
theorem connect_to_env_unparseable_fd (env : Env) (w : SysWorld) (txt : String)
    (h : env.waylandSocket = some txt) (hp : parseI32 txt = none) :
    connect_to_env env w = (.error .InvalidFd, []) := by
  simp [connect_to_env, h, wayland_socket_branch, hp]

/-- Witness for C4 at the concrete value `WAYLAND_SOCKET=abc`. -/
theorem connect_to_env_unparseable_fd_witness :
    envBadFd.waylandSocket = some "abc" ∧ parseI32 "abc" = none ∧
    connect_to_env envBadFd worldOk = (.error .InvalidFd, []) :=
  ⟨rfl, by decide, connect_to_env_unparseable_fd envBadFd worldOk "abc" rfl (by decide)⟩

/-- C5: with `XDG_RUNTIME_DIR` unset, `connect_to_name` always fails with
`XdgRuntimeDirNotSet`, and so does `connect_to_env` when `WAYLAND_SOCKET`
is also unset; in both cases the result holds for every system oracle, so
no socket connection is attempted. -/
theorem xdg_runtime_dir_unset_error (env : Env) (name : String)
    (h : env.xdgRuntimeDir = none) :
    (∀ w : SysWorld, connect_to_name name env w = .error .XdgRuntimeDirNotSet) ∧
    (env.waylandSocket = none →
      ∀ w : SysWorld, connect_to_env env w = (.error .XdgRuntimeDirNotSet, [])) := by
  constructor
  · intro w
    simp [connect_to_name, h]
  · intro hs w
    simp [connect_to_env, hs, socket_path_branch, h]

/-- Witness for C5 at the empty environment. -/
theorem xdg_runtime_dir_unset_error_witness :
    envEmpty.xdgRuntimeDir = none ∧
    ((∀ w : SysWorld,
        connect_to_name "wayland-0" envEmpty w = .error .XdgRuntimeDirNotSet) ∧
      (envEmpty.waylandSocket = none →
        ∀ w : SysWorld,
          connect_to_env envEmpty w = (.error .XdgRuntimeDirNotSet, []))) :=
  ⟨rfl, xdg_runtime_dir_unset_error envEmpty "wayland-0" rfl⟩

/-- C8: when `WAYLAND_SOCKET` parses to an fd but setting close-on-exec
fails, `connect_to_env` closes exactly that fd and fails with `InvalidFd`. -/
theorem connect_to_env_cloexec_failure (env : Env) (w : SysWorld) (txt : String)
    (fd : Int) (h : env.waylandSocket = some txt) (hp : parseI32 txt = some fd)
    (hc : w.cloexecOk fd = false) :
    connect_to_env env w = (.error .InvalidFd, [fd]) := by
  simp [connect_to_env, h, wayland_socket_branch, hp, hc]

/-- Witness for C8 at `WAYLAND_SOCKET=3` with a failing fcntl oracle. -/
theorem connect_to_env_cloexec_failure_witness :
    envFd3.waylandSocket = some "3" ∧ parseI32 "3" = some 3 ∧
    worldNoCloexec.cloexecOk 3 = false ∧
    connect_to_env envFd3 worldNoCloexec = (.error .InvalidFd, [3]) :=
  ⟨rfl, by decide, rfl,
    connect_to_env_cloexec_failure envFd3 worldNoCloexec "3" 3 rfl (by decide) rfl⟩

/-- C9: with `WAYLAND_SOCKET` unset and `XDG_RUNTIME_DIR` set, a missing
`WAYLAND_DISPLAY` yields `NoCompositorListening` — the same variant an
actual failed socket connection yields — and not `XdgRuntimeDirNotSet`. -/
theorem connect_to_env_no_display_var (env : Env) (w : SysWorld) (dir : String)
    (h : env.waylandSocket = none) (hx : env.xdgRuntimeDir = some dir)
    (hd : env.waylandDisplay = none) :
    connect_to_env env w = (.error .NoCompositorListening, []) ∧
    (∀ (env2 : Env) (disp : String), env2.waylandSocket = none →
      env2.xdgRuntimeDir = some dir → env2.waylandDisplay = some disp →
      w.connectPath dir disp = none →
      connect_to_env env2 w = (.error .NoCompositorListening, [])) := by
  constructor
  · simp [connect_to_env, h, socket_path_branch, hx, hd]
  · intro env2 disp h2 hx2 hd2 hc
    simp [connect_to_env, h2, socket_path_branch, hx2, hd2, hc]

/-- Witness for C9 at the environment with only `XDG_RUNTIME_DIR` set. -/
theorem connect_to_env_no_display_var_witness :
    envXdgOnly.waylandSocket = none ∧
    envXdgOnly.xdgRuntimeDir = some "/run/user/1000" ∧
    envXdgOnly.waylandDisplay = none ∧
    (connect_to_env envXdgOnly worldOk = (.error .NoCompositorListening, []) ∧
      (∀ (env2 : Env) (disp : String), env2.waylandSocket = none →
        env2.xdgRuntimeDir = some "/run/user/1000" → env2.waylandDisplay = some disp →
        worldOk.connectPath "/run/user/1000" disp = none →
        connect_to_env env2 worldOk = (.error .NoCompositorListening, []))) :=
  ⟨rfl, rfl, rfl,
    connect_to_env_no_display_var envXdgOnly worldOk "/run/user/1000" rfl rfl rfl⟩

/-- Reading a u32 word back off its little-endian serialization recovers the
value and leaves the remaining bytes untouched. -/
theorem readU32_u32Bytes (n : Nat) (h : n < 4294967296) (rest : List Nat) :
    readU32 (u32Bytes n ++ rest) = some (n, rest) := by
  simp only [u32Bytes, List.cons_append, List.nil_append, readU32,
    Option.some.injEq, Prod.mk.injEq, and_true]
  omega

/-- The two's-complement u32 payload of any i32 is in u32 range. -/
theorem u32ofInt_lt (v : Int) : u32ofInt v < 4294967296 := by
  unfold u32ofInt; omega

/-- Reinterpreting the two's-complement payload of an in-range i32 recovers
the value. -/
theorem i32ofU32_u32ofInt (v : Int) (h1 : -2147483648 ≤ v)
    (h2 : v < 2147483648) : i32ofU32 (u32ofInt v) = v := by
  unfold i32ofU32 u32ofInt
  split <;> omega

/-- Decoding one argument off its own encoding (followed by arbitrary
residual bytes and fds) recovers the argument. -/
theorem decodeTyped_encodeTyped (t : ArgType) (v : ArgVal) (b : List Nat)
    (f : List Int) (h : argOk t v = true) (he : encodeTyped t v = some (b, f))
    (restB : List Nat) (restF : List Int) :
    decodeTyped t (b ++ restB) (f ++ restF) = some (v, restB, restF) := by
  cases t <;> cases v <;>
    simp only [encodeTyped, Option.some.injEq, Prod.mk.injEq,
      reduceCtorEq] at he
  case int.int v =>
    obtain ⟨hb, hf⟩ := he
    subst hb hf
    simp only [argOk, Bool.and_eq_true, decide_eq_true_eq] at h
    simp [decodeTyped, readU32_u32Bytes _ (u32ofInt_lt v),
      i32ofU32_u32ofInt v h.1 h.2]
  case uint.uint n =>
    obtain ⟨hb, hf⟩ := he
    subst hb hf
    simp only [argOk, decide_eq_true_eq] at h
    simp [decodeTyped, readU32_u32Bytes _ h]
  case fixed.fixed v =>
    obtain ⟨hb, hf⟩ := he
    subst hb hf
    simp only [argOk, Bool.and_eq_true, decide_eq_true_eq] at h
    simp [decodeTyped, readU32_u32Bytes _ (u32ofInt_lt v),
      i32ofU32_u32ofInt v h.1 h.2]
  case object.object n =>
    obtain ⟨hb, hf⟩ := he
    subst hb hf
    simp only [argOk, decide_eq_true_eq] at h
    simp [decodeTyped, readU32_u32Bytes _ h]
  case newId.newId n =>
    obtain ⟨hb, hf⟩ := he
    subst hb hf
    simp only [argOk, decide_eq_true_eq] at h
    simp [decodeTyped, readU32_u32Bytes _ h]
  case fd.fd x =>
    obtain ⟨hb, hf⟩ := he
    subst hb hf
    simp [decodeTyped]
  case str.str s =>
    obtain ⟨hb, hf⟩ := he
    subst hb hf
    simp only [argOk, Bool.and_eq_true, decide_eq_true_eq] at h
    have hlen : s.length + 1 < 4294967296 := h.2
    simp only [List.append_assoc, List.nil_append, decodeTyped]
    rw [readU32_u32Bytes _ hlen]
    dsimp only
    have hchunk : (s ++ [0] ++ List.replicate (pad4 (s.length + 1)) 0).length
        = s.length + 1 + pad4 (s.length + 1) := by
      simp [List.length_append, List.length_replicate]
      omega
    have hassoc : s ++ ([0] ++ (List.replicate (pad4 (s.length + 1)) 0
        ++ restB)) = (s ++ [0] ++ List.replicate (pad4 (s.length + 1)) 0)
        ++ restB := by
      simp [List.append_assoc]
    have hrest : (s ++ ([0] ++ (List.replicate (pad4 (s.length + 1)) 0
        ++ restB))).length = s.length + 1 + pad4 (s.length + 1)
        + restB.length := by
      rw [hassoc, List.length_append, hchunk]
    have hdrop : (s ++ ([0] ++ (List.replicate (pad4 (s.length + 1)) 0
        ++ restB))).drop (s.length + 1 + pad4 (s.length + 1)) = restB := by
      rw [hassoc]
      exact List.drop_left' hchunk
    have htake : (s ++ ([0] ++ (List.replicate (pad4 (s.length + 1)) 0
        ++ restB))).take s.length = s := List.take_left' rfl
    rw [if_neg (by omega), if_neg (by omega)]
    simp only [List.singleton_append] at hdrop htake
    simp [Nat.add_sub_cancel, htake, hdrop]
  case array.array a =>
    obtain ⟨hb, hf⟩ := he
    subst hb hf
    simp only [argOk, Bool.and_eq_true, decide_eq_true_eq] at h
    have hlen : a.length < 4294967296 := h.2
    simp only [List.append_assoc, List.nil_append, decodeTyped]
    rw [readU32_u32Bytes _ hlen]
    dsimp only
    have hchunk : (a ++ List.replicate (pad4 a.length) 0).length
        = a.length + pad4 a.length := by
      simp [List.length_append, List.length_replicate]
    have hassoc : a ++ (List.replicate (pad4 a.length) 0 ++ restB)
        = (a ++ List.replicate (pad4 a.length) 0) ++ restB := by
      simp [List.append_assoc]
    have hrest : (a ++ (List.replicate (pad4 a.length) 0 ++ restB)).length
        = a.length + pad4 a.length + restB.length := by
      rw [hassoc, List.length_append, hchunk]
    have hdrop : (a ++ (List.replicate (pad4 a.length) 0 ++ restB)).drop
        (a.length + pad4 a.length) = restB := by
      rw [hassoc]
      exact List.drop_left' hchunk
    have htake : (a ++ (List.replicate (pad4 a.length) 0 ++ restB)).take
        a.length = a := List.take_left' rfl
    rw [if_neg (by omega)]
    simp [htake, hdrop]

/-- Decoding an argument list off its own encoding (followed by arbitrary
residual bytes and fds) recovers the list. -/
theorem decodeArgList_encodeArgList (sig : List ArgType) (args : List ArgVal)
    (b : List Nat) (f : List Int) (h : argListOk sig args = true)
    (he : encodeArgList sig args = some (b, f)) (restB : List Nat)
    (restF : List Int) :
    decodeArgList sig (b ++ restB) (f ++ restF) = some (args, restB, restF) := by
  induction sig generalizing args b f restB restF with
  | nil =>
    cases args with
    | nil =>
      simp only [encodeArgList, Option.some.injEq, Prod.mk.injEq] at he
      obtain ⟨hb, hf⟩ := he
      subst hb hf
      simp [decodeArgList]
    | cons a as => simp [argListOk] at h
  | cons t ts ih =>
    cases args with
    | nil => simp [argListOk] at h
    | cons v vs =>
      simp only [argListOk, Bool.and_eq_true] at h
      simp only [encodeArgList] at he
      cases het : encodeTyped t v with
      | none => rw [het] at he; simp at he
      | some bf =>
        cases hes : encodeArgList ts vs with
        | none => rw [het, hes] at he; simp at he
        | some bsfs =>
          rw [het, hes] at he
          obtain ⟨b1, f1⟩ := bf
          obtain ⟨bs, fs⟩ := bsfs
          simp only [Option.some.injEq, Prod.mk.injEq] at he
          obtain ⟨hb, hf⟩ := he
          subst hb hf
          simp only [decodeArgList, List.append_assoc]
          rw [decodeTyped_encodeTyped t v b1 f1 h.1 het]
          dsimp only
          rw [ih vs bs fs h.2 hes]

/-- C2: for every signature and every argument list whose values are within
their type bounds (and whose object id, opcode and total length fit their
header fields), decoding the bytes and fd side-list produced by
`encode_message` yields exactly the original object id, opcode and argument
list, consuming the whole message and the whole fd list. -/
theorem wire_roundtrip (sig : List ArgType) (args : List ArgVal)
    (oid op : Nat) (bytes : List Nat) (fds : List Int)
    (h : argListOk sig args = true) (hoid : oid < 4294967296)
    (hop : op < 65536) (hlen : bytes.length < 65536)
    (henc : encode_message oid op sig args = some (bytes, fds)) :
    decode_message sig bytes fds = .ok oid op args bytes.length [] := by
  cases he2 : encodeArgList sig args with
  | none => rw [encode_message, he2] at henc; exact absurd henc (by simp)
  | some bodyfds =>
    obtain ⟨body, fdl⟩ := bodyfds
    rw [encode_message, he2] at henc
    simp only [Option.some.injEq, Prod.mk.injEq] at henc
    obtain ⟨hbytes, hfds⟩ := henc
    subst hbytes hfds
    have hblen : (u32Bytes oid ++ (u32Bytes (op + 65536 * (8 + body.length))
        ++ body)).length = 8 + body.length := by
      simp [u32Bytes]
      omega
    rw [List.append_assoc] at hlen ⊢
    rw [hblen] at hlen ⊢
    have hw2 : op + 65536 * (8 + body.length) < 4294967296 := by omega
    simp only [decode_message]
    rw [readU32_u32Bytes _ hoid]
    dsimp only
    rw [readU32_u32Bytes _ hw2]
    dsimp only
    have hmod : (op + 65536 * (8 + body.length)) % 65536 = op := by omega
    have hdiv : (op + 65536 * (8 + body.length)) / 65536 = 8 + body.length := by
      omega
    rw [hmod, hdiv, if_neg (by omega), if_neg (by omega)]
    rw [show 8 + body.length - 8 = body.length by omega, List.take_length]
    have hdec := decodeArgList_encodeArgList sig args body fdl h he2 [] []
    rw [List.append_nil, List.append_nil] at hdec
    rw [hdec]
    simp

/-- With an error already latched, one dispatch call returns that fatal
condition and leaves the state unchanged. -/
theorem dispatch_latched (s : DispState) (e : ProtocolError)
    (h : s.fatal = some e) (q : Nat) (inp : DecodeOutcome) :
    dispatch s q inp = (.fatal e, s) := by
  simp [dispatch, h]

/-- With an error latched, any sequence of dispatch calls leaves the state
unchanged. -/
theorem dispatchRun_latched (s : DispState) (e : ProtocolError)
    (h : s.fatal = some e) (l : List (Nat × DecodeOutcome)) :
    dispatchRun s l = s := by
  induction l with
  | nil => rfl
  | cons p rest ih =>
    obtain ⟨q, i⟩ := p
    rw [dispatchRun, dispatch_latched s e h]
    exact ih

/-- C1: once a dispatch call on any queue detects a protocol violation,
every subsequent dispatch call on every queue of that Display — after any
interleaving of further dispatch calls — returns the same fatal condition,
and `protocol_error` returns `some` of that latched error permanently. -/
theorem fatal_latch_monotone (s : DispState) (q : Nat) (inp : DecodeOutcome)
    (e : ProtocolError) (h : (dispatch s q inp).1 = .fatal e) :
    ∀ (rest : List (Nat × DecodeOutcome)) (q2 : Nat) (inp2 : DecodeOutcome),
      (dispatch (dispatchRun (dispatch s q inp).2 rest) q2 inp2).1
        = .fatal e ∧
      protocol_error (dispatchRun (dispatch s q inp).2 rest) = some e := by
  have hl : (dispatch s q inp).2.fatal = some e := by
    cases hs : s.fatal with
    | some e2 =>
      rw [dispatch_latched s e2 hs] at h ⊢
      cases h
      exact hs
    | none =>
      cases inp with
      | messages n => simp [dispatch, hs] at h
      | violation e2 =>
        simp only [dispatch, hs] at h ⊢
        cases h
        rfl
  intro rest q2 inp2
  rw [dispatchRun_latched _ e hl rest]
  exact ⟨by rw [dispatch_latched _ e hl], hl⟩

/-- Witness for C1: a violation detected on a fresh Display latches. -/
theorem fatal_latch_monotone_witness :
    (dispatch ⟨none⟩ 0 (.violation errW)).1 = .fatal errW ∧
    (∀ (rest : List (Nat × DecodeOutcome)) (q2 : Nat) (inp2 : DecodeOutcome),
      (dispatch (dispatchRun (dispatch ⟨none⟩ 0 (.violation errW)).2 rest)
        q2 inp2).1 = .fatal errW ∧
      protocol_error (dispatchRun (dispatch ⟨none⟩ 0 (.violation errW)).2 rest)
        = some errW) :=
  ⟨rfl, fatal_latch_monotone ⟨none⟩ 0 (.violation errW) errW rfl⟩

/-- C6: `flush` keeps exactly the bytes the socket did not accept for the
next call; when bytes remain it reports `wouldBlock`, which is distinct
from the hard-failure result `ioError`; and on an already-drained outgoing
buffer it is a successful no-op for every socket outcome (so repeated calls
succeed every time). -/
theorem flush_backpressure (c : Conn) (n : Nat) :
    (flush c (.accepted n)).2.outgoing = c.outgoing.drop n ∧
    ((c.outgoing.drop n).isEmpty = false →
      (flush c (.accepted n)).1 = .wouldBlock) ∧
    FlushResult.wouldBlock ≠ FlushResult.ioError ∧
    (c.outgoing = [] → ∀ sock, flush c sock = (.ok, c)) := by
  refine ⟨?_, ?_, by simp, ?_⟩
  · by_cases hempty : c.outgoing.isEmpty
    · rw [List.isEmpty_iff] at hempty
      simp [flush, hempty]
    · simp only [flush, hempty, if_false]
      by_cases hrest : (c.outgoing.drop n).isEmpty <;> simp [hrest]
  · intro hrest
    have hempty : c.outgoing.isEmpty = false := by
      cases hc : c.outgoing with
      | nil => rw [hc] at hrest; simp at hrest
      | cons a l => simp
    simp [flush, hempty, hrest]
  · intro hc sock
    have : c.outgoing.isEmpty = true := by simp [hc]
    simp [flush, this]

/-- Witness for C6 at a concrete three-byte buffer and a two-byte write. -/
theorem flush_backpressure_witness :
    (flush ⟨[1, 2, 3]⟩ (.accepted 2)).2.outgoing = [1, 2, 3].drop 2 ∧
    (([1, 2, 3].drop 2).isEmpty = false →
      (flush ⟨[1, 2, 3]⟩ (.accepted 2)).1 = .wouldBlock) ∧
    FlushResult.wouldBlock ≠ FlushResult.ioError ∧
    (([1, 2, 3] : List Nat) = [] → ∀ sock, flush ⟨[1, 2, 3]⟩ sock = (.ok, ⟨[1, 2, 3]⟩)) :=
  flush_backpressure ⟨[1, 2, 3]⟩ 2

/-- Removing the live-handle entry found by `lookup` removes exactly one
occurrence of its stored pointer from the live-pointer multiset. -/
theorem count_eraseP_lookup (l : List (Nat × Nat)) (h p0 p : Nat)
    (hl : l.lookup h = some p0) :
    ((l.eraseP (fun x => x.1 == h)).map Prod.snd).count p
      + (if p0 = p then 1 else 0)
      = (l.map Prod.snd).count p := by
  induction l with
  | nil => simp [List.lookup] at hl
  | cons a rest ih =>
    obtain ⟨k, v⟩ := a
    by_cases hk : h = k
    · subst hk
      simp only [List.lookup, beq_self_eq_true, cond_true,
        Option.some.injEq] at hl
      subst hl
      simp only [List.eraseP_cons, beq_self_eq_true, cond_true, if_pos rfl,
        List.map_cons, List.count_cons]
      simp
    · have hbeq1 : (h == k) = false := by simp [hk]
      have hbeq2 : (k == h) = false := by simp [Ne.symm hk]
      simp only [List.lookup, hbeq1, cond_false] at hl
      simp only [List.eraseP_cons, hbeq2, cond_false, List.map_cons,
        List.count_cons]
      have := ih hl
      omega

/-- Running the `Buffer` semantics preserves, for every pointer `p`, the
sum of destroy-log occurrences and live-handle occurrences of `p`, up to
the successful creations in the trace: every successful creation is
accounted for by exactly one of a live handle or one destroy call. -/
theorem bufRunFrom_count (t : List BufStep) (w : BufWorld) (p : Nat) :
    (bufRunFrom w t).destroyed.count p
      + ((bufRunFrom w t).live.map Prod.snd).count p
      = w.destroyed.count p + (w.live.map Prod.snd).count p
        + (createdRaws t).count p := by
  induction t generalizing w with
  | nil => simp [bufRunFrom, createdRaws]
  | cons s rest ih =>
    rw [bufRunFrom, ih]
    cases s with
    | create raw =>
      by_cases hz : raw = 0
      · subst hz
        simp [bufStep, Buffer.fromCreate, createdRaws]
      · simp [bufStep, Buffer.fromCreate, hz, createdRaws, List.count_cons]
        omega
    | access hh =>
      cases hl : w.live.lookup hh with
      | none => simp [bufStep, hl, createdRaws]
      | some p0 => simp [bufStep, hl, Buffer.ptrCalls, createdRaws]
    | dropH hh =>
      cases hl : w.live.lookup hh with
      | none => simp [bufStep, hl, createdRaws]
      | some p0 =>
        have hc := count_eraseP_lookup w.live hh p0 p hl
        simp only [bufStep, hl, Buffer.dropCalls, createdRaws,
          List.count_append, List.count_cons, List.count_nil, beq_iff_eq]
        omega

/-- C7: in every run of the `Buffer` API, each successfully created
`wl_buffer` resource is accounted for by exactly one live handle or one
`wl_buffer_destroy` call — never more than one — and once every handle has
been dropped, `wl_buffer_destroy` has been called exactly once per created
resource; dropping is the sole operation that emits a destroy, on the
stored pointer, and pointer reads emit none. -/
theorem buffer_destroy_exactly_once (t : List BufStep) (p : Nat) :
    (bufRun t).destroyed.count p + ((bufRun t).live.map Prod.snd).count p
      = (createdRaws t).count p ∧
    ((bufRun t).live = [] →
      (bufRun t).destroyed.count p = (createdRaws t).count p) ∧
    (∀ b : Buffer, Buffer.dropCalls b = [b.ptr]) ∧
    (∀ b : Buffer, Buffer.ptrCalls b = []) := by
  have hinv := bufRunFrom_count t ⟨0, [], []⟩ p
  simp only [List.count_nil, List.map_nil, Nat.zero_add] at hinv
  refine ⟨hinv, ?_, fun b => rfl, fun b => rfl⟩
  intro hall
  rw [bufRun] at hall ⊢
  rw [hall] at hinv
  simpa using hinv

/-- Witness for C7 on a trace creating, reading and dropping one buffer. -/
theorem buffer_destroy_exactly_once_witness :
    (bufRun [.create 5, .access 0, .dropH 0]).destroyed.count 5
        + ((bufRun [.create 5, .access 0, .dropH 0]).live.map Prod.snd).count 5
      = (createdRaws [.create 5, .access 0, .dropH 0]).count 5 ∧
    ((bufRun [.create 5, .access 0, .dropH 0]).live = [] →
      (bufRun [.create 5, .access 0, .dropH 0]).destroyed.count 5
        = (createdRaws [.create 5, .access 0, .dropH 0]).count 5) ∧
    (∀ b : Buffer, Buffer.dropCalls b = [b.ptr]) ∧
    (∀ b : Buffer, Buffer.ptrCalls b = []) :=
  buffer_destroy_exactly_once [.create 5, .access 0, .dropH 0] 5

/-- Witness for C2 at a concrete message exercising every argument type. -/
theorem wire_roundtrip_witness :
    argListOk sigW argsW = true ∧ (1 : Nat) < 4294967296 ∧
    (0 : Nat) < 65536 ∧ encW.1.length < 65536 ∧
    encode_message 1 0 sigW argsW = some (encW.1, encW.2) ∧
    decode_message sigW encW.1 encW.2 = .ok 1 0 argsW encW.1.length [] :=
  ⟨by decide, by decide, by decide, by decide, by decide,
    wire_roundtrip sigW argsW 1 0 encW.1 encW.2 (by decide) (by decide)
      (by decide) (by decide) (by decide)⟩

end Wayland
